import Mathlib

/-!
Verification of the Frellis Cup scoring engine.

The definitions below are a shallow embedding of the scoring code:
the pure helpers of src/tournamentPrototype.js and the derived-scoring
functions of src/TournamentApp.jsx (computeMatchHoles,
stablefordTotalsStatusFromHoles, pointsForFinalMatch,
computeTournamentTotals).  JavaScript objects keyed by ids are modelled
as functions into Option; absent keys are none.  Points are rationals
so that the half-point split is exact.
-/

namespace Frellis

/-- One hole of a course scorecard: number, par and handicap rank. -/
structure CourseHole where
  hole : Nat
  par : Int
  hcpRank : Nat
deriving DecidableEq

/-- A tournament player (fields used by the scoring engine). -/
structure Player where
  id : String
  name : String
  teamId : String
  courseHcp : Nat
deriving DecidableEq

/-- One side of a match: its id, team and player ids. -/
structure Side where
  id : String
  teamId : String
  playerIds : List String
deriving DecidableEq

/-- The three match formats. -/
inductive Format where
  | FOURBALL_NET
  | SCRAMBLE_STABLEFORD
  | SINGLES_NET
deriving DecidableEq

/-- A match with its raw score storage.  Each gross map sends a player
or side id and a hole number to the entered gross strokes, none when
no entry exists (this models the optional-chaining lookups with a null
default in the source). -/
structure Match where
  id : String
  format : Format
  sideA : Side
  sideB : Side
  fourballGrossByPlayer : String → Nat → Option Int
  scrambleGrossBySide : String → Nat → Option Int
  singlesGrossByPlayer : String → Nat → Option Int

/-- stablefordFromDiff from src/tournamentPrototype.js lines 31-39. -/
def stablefordFromDiff (diff : Int) : Int :=
  if diff ≤ -3 then 10
  else if diff = -2 then 6
  else if diff = -1 then 3
  else if diff = 0 then 1
  else if diff = 1 then -1
  else -2

/-- strokesReceivedOnHole from src/tournamentPrototype.js lines 41-46. -/
def strokesReceivedOnHole (courseHcp : Nat) (holeHcpRank : Nat) : Nat :=
  let full := courseHcp / 18
  let rem := courseHcp % 18
  let extra := if holeHcpRank ≤ rem then 1 else 0
  full + extra

/-- netScore from src/tournamentPrototype.js lines 48-52. -/
def netScore (gross : Option Int) (courseHcp : Nat) (holeHcpRank : Nat) : Option Int :=
  match gross with
  | none => none
  | some g => some (g - (strokesReceivedOnHole courseHcp holeHcpRank : Int))

/-- The shape matchStatusFromHoles consumes: played flag and winner. -/
structure HoleOutcome where
  played : Bool
  winnerSideId : Option String
deriving DecidableEq

/-- Derived match status.  The two trackers populate different numeric
fields (holes tallies versus stableford totals), modelled with Option
fields that the other tracker leaves none, matching the duck-typed
records of the source. -/
structure MatchStatus where
  aHoles : Option Nat
  bHoles : Option Nat
  played : Nat
  isFinal : Bool
  text : String
  leaderSideId : Option String
  isTied : Bool
  aTotalPts : Option Int
  bTotalPts : Option Int
deriving DecidableEq

/-- The accumulation loop of matchStatusFromHoles: holes won by side A,
holes won by side B, holes played. -/
def holesTally (holes : List HoleOutcome) (sideAId sideBId : String) : Nat × Nat × Nat :=
  match holes with
  | [] => (0, 0, 0)
  | h :: rest =>
    let t := holesTally rest sideAId sideBId
    if h.played then
      if h.winnerSideId = some sideAId then (t.1 + 1, t.2.1, t.2.2 + 1)
      else if h.winnerSideId = some sideBId then (t.1, t.2.1 + 1, t.2.2 + 1)
      else (t.1, t.2.1, t.2.2 + 1)
    else t

/-- The branch logic of matchStatusFromHoles, applied to the computed
tallies.  remaining is an integer, as in JavaScript, so that the
function is faithful even on inputs with more than 18 played holes. -/
def statusFromTally (a b played : Nat) (sideAId sideBId : String) : MatchStatus :=
  let remaining : Int := 18 - (played : Int)
  let diff : Int := (a : Int) - (b : Int)
  let ab : Int := |diff|
  if ab > remaining ∧ played > 0 then
    { aHoles := some a, bHoles := some b, played := played, isFinal := true,
      text := if diff = 0 then "Final (Tied)" else s!"Final {ab}&{remaining}",
      leaderSideId := some (if diff > 0 then sideAId else sideBId),
      isTied := false, aTotalPts := none, bTotalPts := none }
  else if played = 0 then
    { aHoles := some 0, bHoles := some 0, played := 0, isFinal := false,
      text := "Not Started", leaderSideId := none, isTied := true,
      aTotalPts := none, bTotalPts := none }
  else if played = 18 then
    if diff = 0 then
      { aHoles := some a, bHoles := some b, played := played, isFinal := true,
        text := "Final (Tied)", leaderSideId := none, isTied := true,
        aTotalPts := none, bTotalPts := none }
    else
      { aHoles := some a, bHoles := some b, played := played, isFinal := true,
        text := s!"Final {ab} Up",
        leaderSideId := some (if diff > 0 then sideAId else sideBId),
        isTied := false, aTotalPts := none, bTotalPts := none }
  else if diff = 0 then
    { aHoles := some a, bHoles := some b, played := played, isFinal := false,
      text := s!"AS Thru {played}", leaderSideId := none, isTied := true,
      aTotalPts := none, bTotalPts := none }
  else
    { aHoles := some a, bHoles := some b, played := played, isFinal := false,
      text := s!"{ab} Up Thru {played}",
      leaderSideId := some (if diff > 0 then sideAId else sideBId),
      isTied := false, aTotalPts := none, bTotalPts := none }

/-- matchStatusFromHoles from src/tournamentPrototype.js lines 54-139
(identical in src/TournamentApp.jsx lines 202-289). -/
def matchStatusFromHoles (holes : List HoleOutcome) (sideAId sideBId : String) : MatchStatus :=
  let t := holesTally holes sideAId sideBId
  statusFromTally t.1 t.2.1 t.2.2 sideAId sideBId

/-- A best-ball entry of computeMatchHoles: after the filter in the
source both the gross and the net are present. -/
structure BallEntry where
  pid : String
  gross : Int
  net : Int
deriving DecidableEq

/-- The per-format detail payload of a HoleResult. -/
inductive HoleDetails where
  | fourball (aBest bBest : Option BallEntry)
  | scramble (aGross bGross aPts bPts : Option Int)
  | singles (aGross bGross aNet bNet : Option Int)
deriving DecidableEq

/-- Derived per-hole outcome (HoleResult of the spec). -/
structure HoleResult where
  hole : Nat
  played : Bool
  winnerSideId : Option String
  details : HoleDetails
deriving DecidableEq

/-- The map-then-filter step of the fourball branch of
computeMatchHoles: each of the side players is mapped to gross and net
and players without an entry (or unknown to playersById, whose net is
null) are dropped. -/
def entriesFor (grossOf : String → Option Int) (playersById : String → Option Player)
    (hcpRank : Nat) (pids : List String) : List BallEntry :=
  pids.filterMap fun pid =>
    let gross := grossOf pid
    let net :=
      match playersById pid with
      | some p => netScore gross p.courseHcp hcpRank
      | none => none
    match gross, net with
    | some g, some n => some ⟨pid, g, n⟩
    | _, _ => none

/-- The reduce of the fourball branch: scan the entries keeping the
entry whose net is strictly smaller, starting from null; none exactly
when the list is empty. -/
def bestBall : List BallEntry → Option BallEntry
  | [] => none
  | e :: rest => some (rest.foldl (fun best cur => if cur.net < best.net then cur else best) e)

/-- The body of the map of computeMatchHoles
(src/TournamentApp.jsx lines 506-606): one HoleResult per course
hole. -/
def holeResult (m : Match) (playersById : String → Option Player) (h : CourseHole) : HoleResult :=
  match m.format with
  | Format.FOURBALL_NET =>
    let aNets := entriesFor (fun pid => m.fourballGrossByPlayer pid h.hole) playersById h.hcpRank m.sideA.playerIds
    let bNets := entriesFor (fun pid => m.fourballGrossByPlayer pid h.hole) playersById h.hcpRank m.sideB.playerIds
    match bestBall aNets, bestBall bNets with
    | some aBest, some bBest =>
      let winner :=
        if aBest.net < bBest.net then some m.sideA.id
        else if bBest.net < aBest.net then some m.sideB.id
        else none
      ⟨h.hole, true, winner, HoleDetails.fourball (some aBest) (some bBest)⟩
    | _, _ => ⟨h.hole, false, none, HoleDetails.fourball none none⟩
  | Format.SCRAMBLE_STABLEFORD =>
    match m.scrambleGrossBySide m.sideA.id h.hole, m.scrambleGrossBySide m.sideB.id h.hole with
    | some aGross, some bGross =>
      let aPts := stablefordFromDiff (aGross - h.par)
      let bPts := stablefordFromDiff (bGross - h.par)
      let winner :=
        if aPts > bPts then some m.sideA.id
        else if bPts > aPts then some m.sideB.id
        else none
      ⟨h.hole, true, winner, HoleDetails.scramble (some aGross) (some bGross) (some aPts) (some bPts)⟩
    | _, _ => ⟨h.hole, false, none, HoleDetails.scramble none none none none⟩
  | Format.SINGLES_NET =>
    let aGross :=
      match m.sideA.playerIds.head? with
      | some pid => m.singlesGrossByPlayer pid h.hole
      | none => none
    let bGross :=
      match m.sideB.playerIds.head? with
      | some pid => m.singlesGrossByPlayer pid h.hole
      | none => none
    match aGross, bGross with
    | some ag, some bg =>
      let aNet :=
        match m.sideA.playerIds.head? with
        | some pid =>
          match playersById pid with
          | some p => netScore (some ag) p.courseHcp h.hcpRank
          | none => none
        | none => none
      let bNet :=
        match m.sideB.playerIds.head? with
        | some pid =>
          match playersById pid with
          | some p => netScore (some bg) p.courseHcp h.hcpRank
          | none => none
        | none => none
      let winner :=
        match aNet, bNet with
        | some an, some bn =>
          if an < bn then some m.sideA.id
          else if bn < an then some m.sideB.id
          else none
        | _, _ => none
      ⟨h.hole, true, winner, HoleDetails.singles (some ag) (some bg) aNet bNet⟩
    | _, _ => ⟨h.hole, false, none, HoleDetails.singles none none none none⟩

/-- computeMatchHoles from src/TournamentApp.jsx lines 506-606. -/
def computeMatchHoles (m : Match) (holes : List CourseHole)
    (playersById : String → Option Player) : List HoleResult :=
  holes.map (holeResult m playersById)

/-- The accumulation loop of stablefordTotalsStatusFromHoles: holes
counted and both running totals, skipping holes that are not played,
whose details are not of scramble type, or whose points are null. -/
def stablefordTally (mh : List HoleResult) : Nat × Int × Int :=
  match mh with
  | [] => (0, 0, 0)
  | h :: rest =>
    let t := stablefordTally rest
    if h.played then
      match h.details with
      | HoleDetails.scramble _ _ (some aPts) (some bPts) => (t.1 + 1, t.2.1 + aPts, t.2.2 + bPts)
      | _ => t
    else t

/-- stablefordTotalsStatusFromHoles from src/TournamentApp.jsx
lines 291-334. -/
def stablefordTotalsStatusFromHoles (mh : List HoleResult) (sideAId sideBId : String) : MatchStatus :=
  let t := stablefordTally mh
  let played := t.1
  let aTotal := t.2.1
  let bTotal := t.2.2
  if played = 0 then
    { aHoles := none, bHoles := none, played := 0, isFinal := false,
      text := "—", leaderSideId := none, isTied := true,
      aTotalPts := some 0, bTotalPts := some 0 }
  else
    let diff := aTotal - bTotal
    { aHoles := none, bHoles := none, played := played,
      isFinal := decide (played = 18),
      text := s!"{aTotal}–{bTotal}",
      leaderSideId := if diff > 0 then some sideAId else if diff < 0 then some sideBId else none,
      isTied := decide (diff = 0),
      aTotalPts := some aTotal, bTotalPts := some bTotal }

/-- A JavaScript object literal with two computed keys, read with a
null-coalescing default of 0: the later key wins on collision and
every other key reads 0. -/
def objTwo (k1 : String) (v1 : ℚ) (k2 : String) (v2 : ℚ) : String → ℚ :=
  fun t => if t = k2 then v2 else if t = k1 then v1 else 0

/-- Whether the first character list starts the second one. -/
def leadsWith : List Char → List Char → Bool
  | [], _ => true
  | _ :: _, [] => false
  | c :: cs, d :: ds => c == d && leadsWith cs ds

/-- Whether the first character list occurs inside the second one. -/
def hasSubstr (pat : List Char) : List Char → Bool
  | [] => pat.isEmpty
  | c :: cs => leadsWith pat (c :: cs) || hasSubstr pat cs

/-- The includes test of the prototype points allocator: whether the
word Tied occurs in a status text. -/
def containsTied (s : String) : Bool :=
  hasSubstr "Tied".toList s.toList

namespace Prototype

/-- pointsForFinalMatch from src/tournamentPrototype.js lines 141-150:
the tie test reads the status text. -/
def pointsForFinalMatch (status : MatchStatus) (sideA sideB : Side) : String → ℚ :=
  if !status.isFinal then objTwo sideA.teamId 0 sideB.teamId 0
  else if containsTied status.text then objTwo sideA.teamId (1/2) sideB.teamId (1/2)
  else
    let winnerTeam := if status.leaderSideId = some sideA.id then sideA.teamId else sideB.teamId
    let loserTeam := if winnerTeam = sideA.teamId then sideB.teamId else sideA.teamId
    objTwo winnerTeam 1 loserTeam 0

end Prototype

namespace App

/-- pointsForFinalMatch from src/TournamentApp.jsx lines 336-346: the
tie test reads the isTied flag. -/
def pointsForFinalMatch (status : MatchStatus) (sideA sideB : Side) : String → ℚ :=
  if !status.isFinal then objTwo sideA.teamId 0 sideB.teamId 0
  else if status.isTied then objTwo sideA.teamId (1/2) sideB.teamId (1/2)
  else
    let winnerTeam := if status.leaderSideId = some sideA.id then sideA.teamId else sideB.teamId
    let loserTeam := if winnerTeam = sideA.teamId then sideB.teamId else sideA.teamId
    objTwo winnerTeam 1 loserTeam 0

end App

/-- The status selection of computeTournamentTotals
(src/TournamentApp.jsx lines 618-625): the stableford tracker for the
scramble format, the holes tracker otherwise (fed with the played flag
and winner of each hole result). -/
def statusOfMatch (m : Match) (holes : List CourseHole)
    (playersById : String → Option Player) : MatchStatus :=
  let mh := computeMatchHoles m holes playersById
  if m.format = Format.SCRAMBLE_STABLEFORD then
    stablefordTotalsStatusFromHoles mh m.sideA.id m.sideB.id
  else
    matchStatusFromHoles (mh.map fun x => ⟨x.played, x.winnerSideId⟩) m.sideA.id m.sideB.id

/-- One day of the schedule, as consumed by computeTournamentTotals. -/
structure DayT where
  day : Nat
  dayMatches : List Match

/-- The tournament snapshot fields consumed by
computeTournamentTotals. -/
structure Tournament where
  players : List Player
  courses : Nat → Option (List CourseHole)
  days : List DayT

/-- The players-by-id lookup built by computeTournamentTotals. -/
def playersByIdOf (t : Tournament) : String → Option Player :=
  fun pid => t.players.find? (fun p => p.id == pid)

/-- The per-match team points of the accumulation in
computeTournamentTotals: the JC and SG reads with a 0 default. -/
def matchPointsPair (m : Match) (holes : List CourseHole)
    (playersById : String → Option Player) : ℚ × ℚ :=
  let pts := App.pointsForFinalMatch (statusOfMatch m holes playersById) m.sideA m.sideB
  (pts "JC", pts "SG")

/-- The per-day accumulation of computeTournamentTotals. -/
def dayPoints (ms : List Match) (holes : List CourseHole)
    (playersById : String → Option Player) : ℚ × ℚ :=
  ms.foldl
    (fun acc m =>
      let p := matchPointsPair m holes playersById
      (acc.1 + p.1, acc.2 + p.2))
    (0, 0)

/-- computeTournamentTotals from src/TournamentApp.jsx lines 608-646,
restricted to the numeric outputs: the two team grand totals. -/
def computeTournamentTotals (t : Tournament) : ℚ × ℚ :=
  let playersById := playersByIdOf t
  let pairs := t.days.map fun d => dayPoints d.dayMatches ((t.courses d.day).getD []) playersById
  ((pairs.map Prod.fst).sum, (pairs.map Prod.snd).sum)

/-- The closeout test scenario: side A wins holes 1 to 10, the
remaining holes have no outcome yet. -/
def closeoutDemoHoles : List HoleOutcome :=
  (List.range 18).map (fun i => if i < 10 then ⟨true, some "A"⟩ else ⟨false, none⟩)

/-- The tied-at-18 test scenario: all 18 holes played and halved. -/
def tiedDemoHoles : List HoleOutcome :=
  (List.range 18).map (fun _ => ⟨true, none⟩)

/-- In the holes tally, the played count of a list in which every hole
is played is the length of the list. -/
lemma holesTally_played_of_all (hs : List HoleOutcome) (A B : String)
    (h : ∀ x ∈ hs, x.played = true) :
    (holesTally hs A B).2.2 = hs.length := by
  induction hs with
  | nil => rfl
  | cons x rest ih =>
    have hx : x.played = true := h x (List.mem_cons_self x rest)
    have hrest := ih (fun y hy => h y (List.mem_cons_of_mem x hy))
    simp only [holesTally, hx, if_true, List.length_cons]
    split
    · simpa using hrest
    · split
      · simpa using hrest
      · simpa using hrest

/-- Branch lemma: the early-closeout branch of statusFromTally. -/
lemma statusFromTally_closeout (a b p : Nat) (A B : String)
    (h1 : (18 : Int) - (p : Int) < |(a : Int) - (b : Int)|) (h2 : 0 < p) :
    statusFromTally a b p A B =
      ⟨some a, some b, p, true,
       (if (a : Int) - (b : Int) = 0 then "Final (Tied)"
        else s!"Final {(|(a : Int) - (b : Int)|)}&{((18 : Int) - (p : Int))}"),
       some (if (a : Int) - (b : Int) > 0 then A else B), false, none, none⟩ := by
  simp only [statusFromTally]
  rw [if_pos ⟨h1, h2⟩]

/-- Branch lemma: the not-started branch of statusFromTally. -/
lemma statusFromTally_notStarted (a b : Nat) (A B : String)
    (h1 : ¬ ((18 : Int) - ((0 : Nat) : Int) < |(a : Int) - (b : Int)|)) :
    statusFromTally a b 0 A B =
      ⟨some 0, some 0, 0, false, "Not Started", none, true, none, none⟩ := by
  simp only [statusFromTally]
  rw [if_neg, if_pos trivial]
  intro hc
  exact h1 hc.1

/-- Branch lemma: the tied branch at 18 played of statusFromTally. -/
lemma statusFromTally_final_tied (a b : Nat) (A B : String)
    (hab : (a : Int) - (b : Int) = 0) :
    statusFromTally a b 18 A B =
      ⟨some a, some b, 18, true, "Final (Tied)", none, true, none, none⟩ := by
  simp only [statusFromTally]
  rw [if_neg, if_neg (by omega), if_pos trivial, if_pos hab]
  intro hc
  rw [hab] at hc
  simp at hc

/-- Branch lemma: the in-progress branches of statusFromTally. -/
lemma statusFromTally_inProgress (a b p : Nat) (A B : String)
    (h1 : ¬ ((18 : Int) - (p : Int) < |(a : Int) - (b : Int)|))
    (h2 : 0 < p) (h3 : p ≠ 18) :
    (statusFromTally a b p A B).isFinal = false := by
  simp only [statusFromTally]
  rw [if_neg, if_neg (by omega), if_neg h3]
  · split <;> rfl
  · intro hc
    exact h1 hc.1

/-- Claim C4: stablefordFromDiff is the step function with values 10,
6, 3, 1, -1, -2 at -3, -2, -1, 0, 1, 2, constant and equal to the
value at 2 above 2, and constant and equal to the value at -3 below
-3. -/
theorem claim_C4_stableford_step :
    stablefordFromDiff (-3) = 10 ∧ stablefordFromDiff (-2) = 6 ∧
    stablefordFromDiff (-1) = 3 ∧ stablefordFromDiff 0 = 1 ∧
    stablefordFromDiff 1 = -1 ∧ stablefordFromDiff 2 = -2 ∧
    (∀ x : Int, 2 < x → stablefordFromDiff x = stablefordFromDiff 2) ∧
    (∀ x : Int, x < -3 → stablefordFromDiff x = stablefordFromDiff (-3)) := by
  refine ⟨by decide, by decide, by decide, by decide, by decide, by decide, ?_, ?_⟩
  · intro x hx
    have h2 : stablefordFromDiff 2 = -2 := by decide
    rw [h2]
    unfold stablefordFromDiff
    rw [if_neg (by omega), if_neg (by omega), if_neg (by omega), if_neg (by omega),
      if_neg (by omega)]
  · intro x hx
    have h3 : stablefordFromDiff (-3) = 10 := by decide
    rw [h3]
    unfold stablefordFromDiff
    rw [if_pos (by omega)]

theorem claim_C4_witness :
    ((2 : Int) < 7 ∧ stablefordFromDiff 7 = stablefordFromDiff 2) ∧
    ((-9 : Int) < -3 ∧ stablefordFromDiff (-9) = stablefordFromDiff (-3)) :=
  ⟨⟨by decide, claim_C4_stableford_step.2.2.2.2.2.2.1 7 (by decide)⟩,
   ⟨by decide, claim_C4_stableford_step.2.2.2.2.2.2.2 (-9) (by decide)⟩⟩

/-- Claim C5: strokesReceivedOnHole is the floor-plus-remainder
formula; a course handicap of 20 gives two strokes on ranks 1 and 2
and one stroke on every rank from 3 to 18; netScore is none on a
missing gross and gross minus strokes received otherwise. -/
theorem claim_C5_handicap :
    (∀ (courseHcp holeRank : Nat),
      strokesReceivedOnHole courseHcp holeRank =
        courseHcp / 18 + (if holeRank ≤ courseHcp % 18 then 1 else 0)) ∧
    (strokesReceivedOnHole 20 1 = 2 ∧ strokesReceivedOnHole 20 2 = 2) ∧
    (∀ r : Nat, 3 ≤ r → r ≤ 18 → strokesReceivedOnHole 20 r = 1) ∧
    (∀ (courseHcp holeRank : Nat), netScore none courseHcp holeRank = none) ∧
    (∀ (g : Int) (courseHcp holeRank : Nat),
      netScore (some g) courseHcp holeRank =
        some (g - (strokesReceivedOnHole courseHcp holeRank : Int))) := by
  refine ⟨fun c r => rfl, ⟨by decide, by decide⟩, ?_, fun c r => rfl, fun g c r => rfl⟩
  intro r h3 h18
  simp only [strokesReceivedOnHole]
  norm_num
  omega

theorem claim_C5_witness :
    (3 ≤ 7 ∧ 7 ≤ 18 ∧ strokesReceivedOnHole 20 7 = 1) ∧
    strokesReceivedOnHole 20 1 = 2 ∧
    netScore (some 6) 20 7 = some 5 :=
  ⟨⟨by decide, by decide, claim_C5_handicap.2.2.1 7 (by decide) (by decide)⟩,
   claim_C5_handicap.2.1.1,
   by rw [claim_C5_handicap.2.2.2.2 6 20 7, claim_C5_handicap.2.2.1 7 (by decide) (by decide)]; decide⟩

/-- The played count of the holes tally never exceeds the number of
holes. -/
lemma holesTally_played_le_length (hs : List HoleOutcome) (A B : String) :
    (holesTally hs A B).2.2 ≤ hs.length := by
  induction hs with
  | nil => exact Nat.le_refl 0
  | cons x rest ih =>
    simp only [holesTally, List.length_cons]
    split
    · split
      · simpa using Nat.succ_le_succ ih
      · split
        · simpa using Nat.succ_le_succ ih
        · simpa using Nat.succ_le_succ ih
    · exact Nat.le_succ_of_le ih

/-- Claim C2: with at least one hole played, the status is a final one
with the closeout label and the leader owning more holes exactly when
the absolute lead exceeds the holes remaining; the dormie boundary
with fewer than 18 played stays in progress; and in the concrete
scenario where side A wins holes 1 to 10 the status is final with text
Final 10&8 and leader side A. -/
theorem claim_C2_closeout_rule :
    (∀ (holes : List HoleOutcome) (A B : String) (a b p : Nat) (ab rem : Int),
      holesTally holes A B = (a, b, p) →
      holes.length = 18 →
      0 < p →
      ab = |(a : Int) - (b : Int)| →
      rem = (18 : Int) - (p : Int) →
      (((matchStatusFromHoles holes A B).isFinal = true ∧
        (matchStatusFromHoles holes A B).text = s!"Final {ab}&{rem}" ∧
        (matchStatusFromHoles holes A B).leaderSideId = some (if b < a then A else B)) ↔
       rem < ab) ∧
      (ab = rem → p < 18 → (matchStatusFromHoles holes A B).isFinal = false)) ∧
    matchStatusFromHoles closeoutDemoHoles "A" "B" =
      ⟨some 10, some 0, 10, true, "Final 10&8", some "A", false, none, none⟩ := by
  constructor
  · intro holes A B a b p ab rem ht hlen hp hab hrem
    have hple : p ≤ 18 := by
      have := holesTally_played_le_length holes A B
      rw [ht] at this
      simpa [hlen] using this
    have key : matchStatusFromHoles holes A B = statusFromTally a b p A B := by
      unfold matchStatusFromHoles
      rw [ht]
    rw [key]
    subst hab hrem
    constructor
    · constructor
      · rintro ⟨hfin, htext, hlead⟩
        by_contra hnot
        push_neg at hnot
        by_cases h18 : p = 18
        · subst h18
          have hd0 : (a : Int) - (b : Int) = 0 := by
            have habs : (0 : Int) ≤ |(a : Int) - (b : Int)| := abs_nonneg _
            have : |(a : Int) - (b : Int)| = 0 := by omega
            exact abs_eq_zero.mp this
          rw [statusFromTally_final_tied a b A B hd0] at hlead
          simp at hlead
        · have := statusFromTally_inProgress a b p A B
            (by omega) hp h18
          rw [this] at hfin
          exact Bool.false_ne_true hfin
      · intro hcl
        have hdne : (a : Int) - (b : Int) ≠ 0 := by
          intro h0
          rw [h0] at hcl
          simp at hcl
          omega
        rw [statusFromTally_closeout a b p A B hcl hp]
        refine ⟨rfl, ?_, ?_⟩
        · simp only [if_neg hdne]
        · by_cases hba : b < a
          · have : (a : Int) - (b : Int) > 0 := by omega
            simp [this, hba]
          · have : ¬ ((a : Int) - (b : Int) > 0) := by omega
            simp [this, hba]
    · intro habrem hplt
      exact statusFromTally_inProgress a b p A B (by omega) hp (by omega)
  · decide

theorem claim_C2_witness :
    holesTally closeoutDemoHoles "A" "B" = (10, 0, 10) ∧
    ((18 : Int) - ((10 : Nat) : Int) < |((10 : Nat) : Int) - ((0 : Nat) : Int)|) ∧
    (matchStatusFromHoles closeoutDemoHoles "A" "B").isFinal = true := by
  refine ⟨by decide, by decide, ?_⟩
  have h := (claim_C2_closeout_rule.1 closeoutDemoHoles "A" "B" 10 0 10
    (|((10 : Nat) : Int) - ((0 : Nat) : Int)|) ((18 : Int) - ((10 : Nat) : Int))
    (by decide) (by decide) (by decide) rfl rfl).1
  exact (h.mpr (by decide)).1

/-- Claim C6: on a list of 18 hole outcomes in which all 18 holes are
played and the early-closeout condition does not fire, the status is
final; equal holes-won counts give the Final (Tied) record with no
leader, and unequal counts would give the Final-n-Up text with the
side ahead as leader (the hypotheses force the counts to be equal, so
that case never materialises). -/
theorem claim_C6_final_at_18 :
    ∀ (holes : List HoleOutcome) (A B : String) (a b p : Nat),
      holesTally holes A B = (a, b, p) →
      holes.length = 18 →
      (∀ x ∈ holes, x.played = true) →
      ¬ ((18 : Int) - (p : Int) < |(a : Int) - (b : Int)|) →
      (matchStatusFromHoles holes A B).isFinal = true ∧
      (a = b →
        matchStatusFromHoles holes A B =
          ⟨some a, some b, 18, true, "Final (Tied)", none, true, none, none⟩) ∧
      (a ≠ b →
        ∀ ab : Int, ab = |(a : Int) - (b : Int)| →
          (matchStatusFromHoles holes A B).text = s!"Final {ab} Up" ∧
          (matchStatusFromHoles holes A B).isTied = false ∧
          (matchStatusFromHoles holes A B).leaderSideId = some (if b < a then A else B)) := by
  intro holes A B a b p ht hlen hall hnc
  have hp18 : p = 18 := by
    have := holesTally_played_of_all holes A B hall
    rw [ht] at this
    simpa [hlen] using this
  subst hp18
  have hd0 : (a : Int) - (b : Int) = 0 := by
    have habs : (0 : Int) ≤ |(a : Int) - (b : Int)| := abs_nonneg _
    have : |(a : Int) - (b : Int)| = 0 := by omega
    exact abs_eq_zero.mp this
  have hab : a = b := by omega
  have key : matchStatusFromHoles holes A B = statusFromTally a b 18 A B := by
    unfold matchStatusFromHoles
    rw [ht]
  rw [key, statusFromTally_final_tied a b A B hd0]
  exact ⟨rfl, fun _ => rfl, fun hne => absurd hab hne⟩

theorem claim_C6_witness :
    holesTally tiedDemoHoles "A" "B" = (0, 0, 18) ∧
    (∀ x ∈ tiedDemoHoles, x.played = true) ∧
    matchStatusFromHoles tiedDemoHoles "A" "B" =
      ⟨some 0, some 0, 18, true, "Final (Tied)", none, true, none, none⟩ := by
  refine ⟨by decide, by decide, ?_⟩
  exact (claim_C6_final_at_18 tiedDemoHoles "A" "B" 0 0 18
    (by decide) (by decide) (by decide) (by decide)).2.1 rfl

lemma objTwo_fst (k1 k2 : String) (v1 v2 : ℚ) (hne : k1 ≠ k2) :
    objTwo k1 v1 k2 v2 k1 = v1 := by
  simp [objTwo, hne]

lemma objTwo_snd (k1 k2 : String) (v1 v2 : ℚ) :
    objTwo k1 v1 k2 v2 k2 = v2 := by
  simp [objTwo]

/-- Claim C1: the points allocator of the app returns 0 and 0 on a
non-final status, a half point to each team on a final tied status,
and the full point to the team owning the leading side otherwise. -/
theorem claim_C1_points_allocator :
    ∀ (status : MatchStatus) (sideA sideB : Side),
      sideA.teamId ≠ sideB.teamId →
      (status.isFinal = false →
        App.pointsForFinalMatch status sideA sideB sideA.teamId = 0 ∧
        App.pointsForFinalMatch status sideA sideB sideB.teamId = 0) ∧
      (status.isFinal = true → status.isTied = true →
        App.pointsForFinalMatch status sideA sideB sideA.teamId = 1/2 ∧
        App.pointsForFinalMatch status sideA sideB sideB.teamId = 1/2) ∧
      (status.isFinal = true → status.isTied = false →
        (status.leaderSideId = some sideA.id →
          App.pointsForFinalMatch status sideA sideB sideA.teamId = 1 ∧
          App.pointsForFinalMatch status sideA sideB sideB.teamId = 0) ∧
        (status.leaderSideId = some sideB.id → sideA.id ≠ sideB.id →
          App.pointsForFinalMatch status sideA sideB sideB.teamId = 1 ∧
          App.pointsForFinalMatch status sideA sideB sideA.teamId = 0)) := by
  intro status sideA sideB hne
  refine ⟨?_, ?_, ?_⟩
  · intro hf
    constructor
    · simp [App.pointsForFinalMatch, hf, objTwo]
    · simp [App.pointsForFinalMatch, hf, objTwo]
  · intro hf ht
    constructor
    · simp [App.pointsForFinalMatch, hf, ht, objTwo, hne]
    · simp [App.pointsForFinalMatch, hf, ht, objTwo]
  · intro hf ht
    constructor
    · intro hlead
      constructor
      · simp [App.pointsForFinalMatch, hf, ht, hlead, objTwo, hne]
      · simp [App.pointsForFinalMatch, hf, ht, hlead, objTwo, Ne.symm hne]
    · intro hlead hid
      constructor
      · simp [App.pointsForFinalMatch, hf, ht, hlead, objTwo, Ne.symm hid, Ne.symm hne]
      · simp [App.pointsForFinalMatch, hf, ht, hlead, objTwo, Ne.symm hid, Ne.symm hne]

/-- Side A of the scramble demo match. -/
def scrDemoSideA : Side := ⟨"d2m1-A", "JC", ["p1", "p2"]⟩

/-- Side B of the scramble demo match. -/
def scrDemoSideB : Side := ⟨"d2m1-B", "SG", ["p3", "p4"]⟩

/-- A scramble demo match in which both sides hold a gross of 4 on
every hole. -/
def scrDemoMatch : Match :=
  { id := "d2m1", format := Format.SCRAMBLE_STABLEFORD,
    sideA := scrDemoSideA, sideB := scrDemoSideB,
    fourballGrossByPlayer := fun _ _ => none,
    scrambleGrossBySide := fun sid h =>
      if (sid = "d2m1-A" ∨ sid = "d2m1-B") ∧ 1 ≤ h ∧ h ≤ 18 then some 4 else none,
    singlesGrossByPlayer := fun _ _ => none }

/-- An all-par-4 demo course. -/
def demoCourse : List CourseHole := (List.range 18).map (fun i => ⟨i + 1, 4, i + 1⟩)

/-- The status of the scramble demo match: 18 played holes, both
totals 18, so final and tied with the running-totals label. -/
def scrDemoStatus : MatchStatus :=
  stablefordTotalsStatusFromHoles
    (computeMatchHoles scrDemoMatch demoCourse (fun _ => none)) "d2m1-A" "d2m1-B"

theorem claim_C1_witness :
    scrDemoStatus.isFinal = true ∧ scrDemoStatus.isTied = true ∧
    scrDemoStatus.text = "18–18" ∧ containsTied scrDemoStatus.text = false ∧
    App.pointsForFinalMatch scrDemoStatus scrDemoSideA scrDemoSideB "JC" = 1/2 ∧
    App.pointsForFinalMatch scrDemoStatus scrDemoSideA scrDemoSideB "SG" = 1/2 := by
  have h := (claim_C1_points_allocator scrDemoStatus scrDemoSideA scrDemoSideB
    (by decide)).2.1 (by decide) (by decide)
  exact ⟨by decide, by decide, by decide, by decide, h.1, h.2⟩

/-- The two reads of the prototype points object always sum to the
point mass of a match: 1 once final, 0 before. -/
lemma proto_points_sum (status : MatchStatus) (sideA sideB : Side)
    (hne : sideA.teamId ≠ sideB.teamId) :
    Prototype.pointsForFinalMatch status sideA sideB sideA.teamId +
      Prototype.pointsForFinalMatch status sideA sideB sideB.teamId =
      (if status.isFinal then (1 : ℚ) else 0) := by
  by_cases hf : status.isFinal
  · by_cases ht : containsTied status.text
    · simp [Prototype.pointsForFinalMatch, hf, ht, objTwo, hne]
      norm_num
    · by_cases hl : status.leaderSideId = some sideA.id
      · simp [Prototype.pointsForFinalMatch, hf, ht, hl, objTwo, hne, Ne.symm hne]
      · simp [Prototype.pointsForFinalMatch, hf, ht, hl, objTwo, hne, Ne.symm hne]
  · simp [Prototype.pointsForFinalMatch, hf, objTwo]

/-- The two reads of the app points object always sum to the point
mass of a match: 1 once final, 0 before. -/
lemma app_points_sum (status : MatchStatus) (sideA sideB : Side)
    (hne : sideA.teamId ≠ sideB.teamId) :
    App.pointsForFinalMatch status sideA sideB sideA.teamId +
      App.pointsForFinalMatch status sideA sideB sideB.teamId =
      (if status.isFinal then (1 : ℚ) else 0) := by
  by_cases hf : status.isFinal
  · by_cases ht : status.isTied
    · simp [App.pointsForFinalMatch, hf, ht, objTwo, hne]
      norm_num
    · by_cases hl : status.leaderSideId = some sideA.id
      · simp [App.pointsForFinalMatch, hf, ht, hl, objTwo, hne, Ne.symm hne]
      · simp [App.pointsForFinalMatch, hf, ht, hl, objTwo, hne, Ne.symm hne]
  · simp [App.pointsForFinalMatch, hf, objTwo]

/-- On a final status with no leader and no Tied in its text, the
prototype allocator awards the whole point to the team of side B. -/
lemma proto_points_leaderless (status : MatchStatus) (sideA sideB : Side)
    (hne : sideA.teamId ≠ sideB.teamId)
    (hf : status.isFinal = true)
    (hl : status.leaderSideId = none)
    (ht : containsTied status.text = false) :
    Prototype.pointsForFinalMatch status sideA sideB sideB.teamId = 1 ∧
    Prototype.pointsForFinalMatch status sideA sideB sideA.teamId = 0 := by
  constructor
  · simp [Prototype.pointsForFinalMatch, hf, hl, ht, objTwo, Ne.symm hne]
  · simp [Prototype.pointsForFinalMatch, hf, hl, ht, objTwo, Ne.symm hne]

/-- The teams condition of a match: its sides belong to the two real
teams, in either order. -/
def JCvsSG (m : Match) : Prop :=
  (m.sideA.teamId = "JC" ∧ m.sideB.teamId = "SG") ∨
  (m.sideA.teamId = "SG" ∧ m.sideB.teamId = "JC")

instance (m : Match) : Decidable (JCvsSG m) := by
  unfold JCvsSG
  infer_instance

/-- The JC and SG reads of a match contribution sum to the match point
mass. -/
lemma matchPointsPair_sum (m : Match) (holes : List CourseHole)
    (playersById : String → Option Player) (h : JCvsSG m) :
    (matchPointsPair m holes playersById).1 + (matchPointsPair m holes playersById).2 =
      (if (statusOfMatch m holes playersById).isFinal then (1 : ℚ) else 0) := by
  rcases h with ⟨h1, h2⟩ | ⟨h1, h2⟩
  · have := app_points_sum (statusOfMatch m holes playersById) m.sideA m.sideB
      (by rw [h1, h2]; decide)
    rw [h1, h2] at this
    simpa [matchPointsPair] using this
  · have := app_points_sum (statusOfMatch m holes playersById) m.sideA m.sideB
      (by rw [h1, h2]; decide)
    rw [h1, h2] at this
    simp only [matchPointsPair, h1, h2]
    rw [add_comm]
    exact this

/-- The pointwise sum of a day fold, generalised over the
accumulator. -/
lemma dayPoints_fold_sum (ms : List Match) (holes : List CourseHole)
    (playersById : String → Option Player) (hms : ∀ m ∈ ms, JCvsSG m) :
    ∀ init : ℚ × ℚ,
      (ms.foldl
        (fun acc m =>
          let p := matchPointsPair m holes playersById
          (acc.1 + p.1, acc.2 + p.2)) init).1 +
      (ms.foldl
        (fun acc m =>
          let p := matchPointsPair m holes playersById
          (acc.1 + p.1, acc.2 + p.2)) init).2 =
      init.1 + init.2 +
        (ms.map fun m =>
          if (statusOfMatch m holes playersById).isFinal then (1 : ℚ) else 0).sum := by
  induction ms with
  | nil => intro init; simp
  | cons m rest ih =>
    intro init
    have hm : JCvsSG m := hms m (List.mem_cons_self m rest)
    have hrest : ∀ x ∈ rest, JCvsSG x := fun x hx => hms x (List.mem_cons_of_mem m hx)
    simp only [List.foldl_cons, List.map_cons, List.sum_cons]
    rw [ih hrest]
    have := matchPointsPair_sum m holes playersById hm
    simp only []
    ring_nf
    rw [← this]
    ring

/-- The per-day totals sum to the per-day point mass. -/
lemma dayPoints_sum (ms : List Match) (holes : List CourseHole)
    (playersById : String → Option Player) (hms : ∀ m ∈ ms, JCvsSG m) :
    (dayPoints ms holes playersById).1 + (dayPoints ms holes playersById).2 =
      (ms.map fun m =>
        if (statusOfMatch m holes playersById).isFinal then (1 : ℚ) else 0).sum := by
  have := dayPoints_fold_sum ms holes playersById hms (0, 0)
  simpa [dayPoints] using this

lemma sum_fst_add_sum_snd (l : List (ℚ × ℚ)) :
    (l.map Prod.fst).sum + (l.map Prod.snd).sum = (l.map fun p => p.1 + p.2).sum := by
  induction l with
  | nil => simp
  | cons x rest ih =>
    simp only [List.map_cons, List.sum_cons]
    rw [← ih]
    ring

/-- Claim C10: for distinct team ids the two team point reads of each
points allocator sum to 1 on a final status and 0 otherwise, also on
final statuses with no leader and no Tied in the text, where the
prototype allocator hands the whole point to the team of side B; and
the tournament totals carry exactly the point mass of the finished
matches. -/
theorem claim_C10_point_conservation :
    (∀ (status : MatchStatus) (sideA sideB : Side),
      sideA.teamId ≠ sideB.teamId →
      (Prototype.pointsForFinalMatch status sideA sideB sideA.teamId +
        Prototype.pointsForFinalMatch status sideA sideB sideB.teamId =
        (if status.isFinal then (1 : ℚ) else 0)) ∧
      (App.pointsForFinalMatch status sideA sideB sideA.teamId +
        App.pointsForFinalMatch status sideA sideB sideB.teamId =
        (if status.isFinal then (1 : ℚ) else 0)) ∧
      (status.isFinal = true → status.leaderSideId = none →
        containsTied status.text = false →
        Prototype.pointsForFinalMatch status sideA sideB sideB.teamId = 1 ∧
        Prototype.pointsForFinalMatch status sideA sideB sideA.teamId = 0)) ∧
    (∀ t : Tournament,
      (∀ d ∈ t.days, ∀ m ∈ d.dayMatches, JCvsSG m) →
      (computeTournamentTotals t).1 + (computeTournamentTotals t).2 =
        (t.days.map fun d =>
          (d.dayMatches.map fun m =>
            if (statusOfMatch m ((t.courses d.day).getD []) (playersByIdOf t)).isFinal
            then (1 : ℚ) else 0).sum).sum) := by
  constructor
  · intro status sideA sideB hne
    exact ⟨proto_points_sum status sideA sideB hne,
      app_points_sum status sideA sideB hne,
      fun hf hl ht => proto_points_leaderless status sideA sideB hne hf hl ht⟩
  · intro t hall
    simp only [computeTournamentTotals]
    rw [sum_fst_add_sum_snd]
    rw [List.map_map]
    congr 1
    apply List.map_congr_left
    intro d hd
    exact dayPoints_sum d.dayMatches ((t.courses d.day).getD []) (playersByIdOf t)
      (fun m hm => hall d hd m hm)

/-- A final tied stableford status whose text is a running-totals
label: no Tied occurs in the text and there is no leader. -/
def c10DemoStatus : MatchStatus :=
  ⟨none, none, 18, true, "14–14", none, true, some 14, some 14⟩

/-- A one-day one-match tournament with no scores entered. -/
def c10DemoTournament : Tournament :=
  ⟨[], fun d => if d = 2 then some demoCourse else none,
   [⟨2, [scrDemoMatch]⟩]⟩

theorem claim_C10_witness :
    (Prototype.pointsForFinalMatch c10DemoStatus scrDemoSideA scrDemoSideB
        scrDemoSideA.teamId +
      Prototype.pointsForFinalMatch c10DemoStatus scrDemoSideA scrDemoSideB
        scrDemoSideB.teamId = 1) ∧
    (Prototype.pointsForFinalMatch c10DemoStatus scrDemoSideA scrDemoSideB
        scrDemoSideB.teamId = 1) ∧
    ((computeTournamentTotals c10DemoTournament).1 +
      (computeTournamentTotals c10DemoTournament).2 =
      (c10DemoTournament.days.map fun d =>
        (d.dayMatches.map fun m =>
          if (statusOfMatch m ((c10DemoTournament.courses d.day).getD [])
              (playersByIdOf c10DemoTournament)).isFinal
          then (1 : ℚ) else 0).sum).sum) := by
  have h := claim_C10_point_conservation
  refine ⟨?_, ?_, ?_⟩
  · have hs := (h.1 c10DemoStatus scrDemoSideA scrDemoSideB (by decide)).1
    rw [hs]
    rfl
  · exact ((h.1 c10DemoStatus scrDemoSideA scrDemoSideB (by decide)).2.2
      rfl rfl (by decide)).1
  · exact h.2 c10DemoTournament (by decide)

/-- Spec-side vocabulary for the scramble status claim: the holes on
which both sides hold a gross entry (the spec words both sides gross
entries present). -/
def specScramblePlayedHoles (m : Match) (holes : List CourseHole) : List CourseHole :=
  holes.filter fun h =>
    (m.scrambleGrossBySide m.sideA.id h.hole).isSome &&
    (m.scrambleGrossBySide m.sideB.id h.hole).isSome

/-- Spec-side vocabulary: the cumulative stableford total of one side
over a list of holes, per the spec words cumulative point totals over
holes actually played. -/
def specScrambleTotal (grossOf : Nat → Option Int) (hs : List CourseHole) : Int :=
  (hs.map fun h => stablefordFromDiff ((grossOf h.hole).getD 0 - h.par)).sum

/-- The stableford tally of the computed holes of a scramble match is
the played-hole count and the two cumulative totals. -/
lemma scramble_tally (m : Match) (holes : List CourseHole)
    (playersById : String → Option Player)
    (hfmt : m.format = Format.SCRAMBLE_STABLEFORD) :
    stablefordTally (computeMatchHoles m holes playersById) =
      ((specScramblePlayedHoles m holes).length,
       specScrambleTotal (m.scrambleGrossBySide m.sideA.id) (specScramblePlayedHoles m holes),
       specScrambleTotal (m.scrambleGrossBySide m.sideB.id) (specScramblePlayedHoles m holes)) := by
  induction holes with
  | nil => simp [computeMatchHoles, stablefordTally, specScramblePlayedHoles, specScrambleTotal]
  | cons h rest ih =>
    simp only [computeMatchHoles, List.map_cons] at ih ⊢
    rcases hA : m.scrambleGrossBySide m.sideA.id h.hole with _ | ag
    · have hcond : ((m.scrambleGrossBySide m.sideA.id h.hole).isSome &&
          (m.scrambleGrossBySide m.sideB.id h.hole).isSome) = false := by
        rw [hA]
        rfl
      have hres : holeResult m playersById h =
          ⟨h.hole, false, none, HoleDetails.scramble none none none none⟩ := by
        simp only [holeResult, hfmt]
        rw [hA]
      simp only [stablefordTally, hres, specScramblePlayedHoles, List.filter_cons, hcond,
        Bool.false_eq_true, if_false]
      exact ih
    · rcases hB : m.scrambleGrossBySide m.sideB.id h.hole with _ | bg
      · have hcond : ((m.scrambleGrossBySide m.sideA.id h.hole).isSome &&
            (m.scrambleGrossBySide m.sideB.id h.hole).isSome) = false := by
          rw [hA, hB]
          rfl
        have hres : holeResult m playersById h =
            ⟨h.hole, false, none, HoleDetails.scramble none none none none⟩ := by
          simp only [holeResult, hfmt]
          rw [hA, hB]
        simp only [stablefordTally, hres, specScramblePlayedHoles, List.filter_cons, hcond,
          Bool.false_eq_true, if_false]
        exact ih
      · have hcond : ((m.scrambleGrossBySide m.sideA.id h.hole).isSome &&
            (m.scrambleGrossBySide m.sideB.id h.hole).isSome) = true := by
          rw [hA, hB]
          rfl
        have hres : holeResult m playersById h =
            ⟨h.hole, true,
             (if stablefordFromDiff (ag - h.par) > stablefordFromDiff (bg - h.par) then some m.sideA.id
              else if stablefordFromDiff (bg - h.par) > stablefordFromDiff (ag - h.par) then some m.sideB.id
              else none),
             HoleDetails.scramble (some ag) (some bg)
               (some (stablefordFromDiff (ag - h.par))) (some (stablefordFromDiff (bg - h.par)))⟩ := by
          simp only [holeResult, hfmt]
          rw [hA, hB]
        simp only [stablefordTally, hres, specScramblePlayedHoles, List.filter_cons, hcond,
          if_true, List.length_cons, specScrambleTotal, List.map_cons, List.sum_cons, hA, hB]
        rw [show specScramblePlayedHoles m rest =
            rest.filter (fun x => ((m.scrambleGrossBySide m.sideA.id x.hole).isSome &&
              (m.scrambleGrossBySide m.sideB.id x.hole).isSome)) from rfl] at ih
        rw [ih]
        refine Prod.ext rfl (Prod.ext ?_ ?_) <;>
          simp [specScrambleTotal, Option.getD, hA, hB] <;> ring

/-- Claim C7: the status of a Scramble-Stableford match is derived
from the cumulative point totals over the holes with both gross
entries present: the dash placeholder when no hole is played, final
exactly at 18 played holes, leader the side with the strictly higher
total, tied exactly on equal totals, and the running-totals label as
text. -/
theorem claim_C7_scramble_status :
    ∀ (m : Match) (holes : List CourseHole) (playersById : String → Option Player)
      (p : Nat) (aT bT : Int),
      m.format = Format.SCRAMBLE_STABLEFORD →
      p = (specScramblePlayedHoles m holes).length →
      aT = specScrambleTotal (m.scrambleGrossBySide m.sideA.id) (specScramblePlayedHoles m holes) →
      bT = specScrambleTotal (m.scrambleGrossBySide m.sideB.id) (specScramblePlayedHoles m holes) →
      (statusOfMatch m holes playersById =
        stablefordTotalsStatusFromHoles (computeMatchHoles m holes playersById)
          m.sideA.id m.sideB.id) ∧
      stablefordTally (computeMatchHoles m holes playersById) = (p, aT, bT) ∧
      (p = 0 →
        statusOfMatch m holes playersById =
          ⟨none, none, 0, false, "—", none, true, some 0, some 0⟩) ∧
      ((statusOfMatch m holes playersById).isFinal = true ↔ p = 18) ∧
      ((statusOfMatch m holes playersById).leaderSideId =
        if bT < aT then some m.sideA.id else if aT < bT then some m.sideB.id else none) ∧
      ((statusOfMatch m holes playersById).isTied = true ↔ aT = bT) ∧
      (0 < p → (statusOfMatch m holes playersById).text = s!"{aT}–{bT}") := by
  intro m holes playersById p aT bT hfmt hp haT hbT
  have hsel : statusOfMatch m holes playersById =
      stablefordTotalsStatusFromHoles (computeMatchHoles m holes playersById)
        m.sideA.id m.sideB.id := by
    simp [statusOfMatch, hfmt]
  have htally : stablefordTally (computeMatchHoles m holes playersById) = (p, aT, bT) := by
    rw [scramble_tally m holes playersById hfmt, hp, haT, hbT]
  refine ⟨hsel, htally, ?_⟩
  by_cases hp0 : p = 0
  · have hnil : specScramblePlayedHoles m holes = [] := by
      rw [hp] at hp0
      exact List.length_eq_zero.mp hp0
    have haT0 : aT = 0 := by
      rw [haT, hnil]
      rfl
    have hbT0 : bT = 0 := by
      rw [hbT, hnil]
      rfl
    have hdash : statusOfMatch m holes playersById =
        ⟨none, none, 0, false, "—", none, true, some 0, some 0⟩ := by
      rw [hsel]
      simp only [stablefordTotalsStatusFromHoles, htally]
      rw [if_pos hp0]
    refine ⟨fun _ => hdash, ?_, ?_, ?_, ?_⟩
    · rw [hdash]
      simp [hp0]
    · rw [hdash, haT0, hbT0]
      simp
    · rw [hdash, haT0, hbT0]
      simp
    · intro hpos
      omega
  · have hmain : statusOfMatch m holes playersById =
        ⟨none, none, p, decide (p = 18), s!"{aT}–{bT}",
         (if aT - bT > 0 then some m.sideA.id
          else if aT - bT < 0 then some m.sideB.id else none),
         decide (aT - bT = 0), some aT, some bT⟩ := by
      rw [hsel]
      simp only [stablefordTotalsStatusFromHoles, htally]
      rw [if_neg hp0]
    refine ⟨fun hz => absurd hz hp0, ?_, ?_, ?_, ?_⟩
    · rw [hmain]
      simp
    · rw [hmain]
      by_cases hba : bT < aT
      · rw [if_pos (by omega : aT - bT > 0), if_pos hba]
      · by_cases hab : aT < bT
        · rw [if_neg (by omega), if_pos (by omega : aT - bT < 0), if_neg hba, if_pos hab]
        · rw [if_neg (by omega), if_neg (by omega), if_neg hba, if_neg hab]
    · rw [hmain]
      simp
      omega
    · intro hpos
      rw [hmain]

theorem claim_C7_witness :
    scrDemoMatch.format = Format.SCRAMBLE_STABLEFORD ∧
    (specScramblePlayedHoles scrDemoMatch demoCourse).length = 18 ∧
    (statusOfMatch scrDemoMatch demoCourse (fun _ => none)).isFinal = true := by
  refine ⟨rfl, by decide, ?_⟩
  have h := claim_C7_scramble_status scrDemoMatch demoCourse (fun _ => none)
    ((specScramblePlayedHoles scrDemoMatch demoCourse).length)
    (specScrambleTotal (scrDemoMatch.scrambleGrossBySide scrDemoMatch.sideA.id)
      (specScramblePlayedHoles scrDemoMatch demoCourse))
    (specScrambleTotal (scrDemoMatch.scrambleGrossBySide scrDemoMatch.sideB.id)
      (specScramblePlayedHoles scrDemoMatch demoCourse))
    rfl rfl rfl rfl
  exact h.2.2.2.1.mpr (by decide)

/-- With every raw entry cleared, no hole of any format is played and
no winner is assigned. -/
lemma holeResult_cleared (m : Match) (playersById : String → Option Player) (h : CourseHole)
    (h4 : ∀ pid k, m.fourballGrossByPlayer pid k = none)
    (hs : ∀ sid k, m.scrambleGrossBySide sid k = none)
    (hg : ∀ pid k, m.singlesGrossByPlayer pid k = none) :
    (holeResult m playersById h).played = false ∧
    (holeResult m playersById h).winnerSideId = none := by
  rcases hfmt : m.format with _ | _ | _
  · have hnets : ∀ pids, entriesFor (fun pid => m.fourballGrossByPlayer pid h.hole)
        playersById h.hcpRank pids = [] := by
      intro pids
      simp only [entriesFor]
      rw [List.filterMap_eq_nil_iff]
      intro pid _
      rw [h4 pid h.hole]
    have hres : holeResult m playersById h =
        ⟨h.hole, false, none, HoleDetails.fourball none none⟩ := by
      simp only [holeResult, hfmt, hnets m.sideA.playerIds, hnets m.sideB.playerIds, bestBall]
    rw [hres]
    exact ⟨rfl, rfl⟩
  · have hres : holeResult m playersById h =
        ⟨h.hole, false, none, HoleDetails.scramble none none none none⟩ := by
      simp only [holeResult, hfmt, hs m.sideA.id h.hole, hs m.sideB.id h.hole]
    rw [hres]
    exact ⟨rfl, rfl⟩
  · have hres : holeResult m playersById h =
        ⟨h.hole, false, none, HoleDetails.singles none none none none⟩ := by
      rcases ha : m.sideA.playerIds.head? with _ | apid <;>
        rcases hb : m.sideB.playerIds.head? with _ | bpid <;>
        simp only [holeResult, hfmt, ha, hb, hg]
    rw [hres]
    exact ⟨rfl, rfl⟩

/-- The holes tally of outcomes none of which is played. -/
lemma holesTally_none_played (hs : List HoleOutcome) (A B : String)
    (h : ∀ x ∈ hs, x.played = false) :
    holesTally hs A B = (0, 0, 0) := by
  induction hs with
  | nil => rfl
  | cons x rest ih =>
    have hx : x.played = false := h x (List.mem_cons_self x rest)
    have hrest := ih (fun y hy => h y (List.mem_cons_of_mem x hy))
    simp only [holesTally, hx, Bool.false_eq_true, if_false]
    exact hrest

/-- The stableford tally of results none of which is played. -/
lemma stablefordTally_none_played (mh : List HoleResult)
    (h : ∀ x ∈ mh, x.played = false) :
    stablefordTally mh = (0, 0, 0) := by
  induction mh with
  | nil => rfl
  | cons x rest ih =>
    have hx : x.played = false := h x (List.mem_cons_self x rest)
    have hrest := ih (fun y hy => h y (List.mem_cons_of_mem x hy))
    simp only [stablefordTally, hx, Bool.false_eq_true, if_false]
    exact hrest

/-- Claim C9, amended: clearing every raw entry of a match resets the
match-play formats to the Not Started status but the scramble format
to the dash status; in every format the reset status is not final,
leaderless and tied, and awards 0 points to both teams. -/
theorem claim_C9_clear_reset :
    ∀ (m : Match) (holes : List CourseHole) (playersById : String → Option Player),
      (∀ pid k, m.fourballGrossByPlayer pid k = none) →
      (∀ sid k, m.scrambleGrossBySide sid k = none) →
      (∀ pid k, m.singlesGrossByPlayer pid k = none) →
      (m.format ≠ Format.SCRAMBLE_STABLEFORD →
        statusOfMatch m holes playersById =
          ⟨some 0, some 0, 0, false, "Not Started", none, true, none, none⟩) ∧
      (m.format = Format.SCRAMBLE_STABLEFORD →
        statusOfMatch m holes playersById =
          ⟨none, none, 0, false, "—", none, true, some 0, some 0⟩) ∧
      ((statusOfMatch m holes playersById).isFinal = false ∧
       (statusOfMatch m holes playersById).leaderSideId = none ∧
       (statusOfMatch m holes playersById).isTied = true) ∧
      (∀ team : String,
        App.pointsForFinalMatch (statusOfMatch m holes playersById) m.sideA m.sideB team = 0) := by
  intro m holes playersById h4 hs hg
  have hnp : ∀ x ∈ computeMatchHoles m holes playersById, x.played = false := by
    intro x hx
    rcases List.mem_map.mp hx with ⟨h, _, rfl⟩
    exact (holeResult_cleared m playersById h h4 hs hg).1
  have hmatch : ∀ hne : m.format ≠ Format.SCRAMBLE_STABLEFORD,
      statusOfMatch m holes playersById =
        ⟨some 0, some 0, 0, false, "Not Started", none, true, none, none⟩ := by
    intro hne
    have htally : holesTally
        ((computeMatchHoles m holes playersById).map fun x => ⟨x.played, x.winnerSideId⟩)
        m.sideA.id m.sideB.id = (0, 0, 0) := by
      apply holesTally_none_played
      intro y hy
      rcases List.mem_map.mp hy with ⟨x, hx, rfl⟩
      exact hnp x hx
    simp only [statusOfMatch, if_neg hne, matchStatusFromHoles, htally]
    exact statusFromTally_notStarted 0 0 m.sideA.id m.sideB.id (by simp)
  have hscr : ∀ he : m.format = Format.SCRAMBLE_STABLEFORD,
      statusOfMatch m holes playersById =
        ⟨none, none, 0, false, "—", none, true, some 0, some 0⟩ := by
    intro he
    have htally : stablefordTally (computeMatchHoles m holes playersById) = (0, 0, 0) :=
      stablefordTally_none_played _ hnp
    simp only [statusOfMatch, if_pos he, stablefordTotalsStatusFromHoles, htally]
    rfl
  have hflags : (statusOfMatch m holes playersById).isFinal = false ∧
      (statusOfMatch m holes playersById).leaderSideId = none ∧
      (statusOfMatch m holes playersById).isTied = true := by
    by_cases he : m.format = Format.SCRAMBLE_STABLEFORD
    · rw [hscr he]
      exact ⟨rfl, rfl, rfl⟩
    · rw [hmatch he]
      exact ⟨rfl, rfl, rfl⟩
  refine ⟨hmatch, hscr, hflags, ?_⟩
  intro team
  simp [App.pointsForFinalMatch, hflags.1, objTwo]

/-- A scramble match with no raw entries at all. -/
def emptyScrMatch : Match :=
  { id := "d2m2", format := Format.SCRAMBLE_STABLEFORD,
    sideA := ⟨"d2m2-A", "JC", ["p5", "p6"]⟩, sideB := ⟨"d2m2-B", "SG", ["p7", "p8"]⟩,
    fourballGrossByPlayer := fun _ _ => none,
    scrambleGrossBySide := fun _ _ => none,
    singlesGrossByPlayer := fun _ _ => none }

/-- Counterexample to claim C9 as stated: a scramble match with every
raw entry cleared reports the dash status, not the Not Started text
the claim requires of every format. -/
theorem claim_C9_counterexample :
    (statusOfMatch emptyScrMatch demoCourse (fun _ => none)).text = "—" ∧
    ¬ ((statusOfMatch emptyScrMatch demoCourse (fun _ => none)).text = "Not Started") := by
  exact ⟨by decide, by decide⟩

/-- A fourball match with no raw entries at all. -/
def emptyFourballMatch : Match :=
  { id := "d1m1", format := Format.FOURBALL_NET,
    sideA := ⟨"d1m1-A", "JC", ["p1", "p2"]⟩, sideB := ⟨"d1m1-B", "SG", ["p3", "p4"]⟩,
    fourballGrossByPlayer := fun _ _ => none,
    scrambleGrossBySide := fun _ _ => none,
    singlesGrossByPlayer := fun _ _ => none }

theorem claim_C9_witness :
    statusOfMatch emptyFourballMatch demoCourse (fun _ => none) =
      ⟨some 0, some 0, 0, false, "Not Started", none, true, none, none⟩ ∧
    statusOfMatch emptyScrMatch demoCourse (fun _ => none) =
      ⟨none, none, 0, false, "—", none, true, some 0, some 0⟩ ∧
    App.pointsForFinalMatch (statusOfMatch emptyScrMatch demoCourse (fun _ => none))
      emptyScrMatch.sideA emptyScrMatch.sideB "JC" = 0 := by
  have h1 := claim_C9_clear_reset emptyFourballMatch demoCourse (fun _ => none)
    (fun _ _ => rfl) (fun _ _ => rfl) (fun _ _ => rfl)
  have h2 := claim_C9_clear_reset emptyScrMatch demoCourse (fun _ => none)
    (fun _ _ => rfl) (fun _ _ => rfl) (fun _ _ => rfl)
  exact ⟨h1.1 (by decide), h2.2.1 rfl, h2.2.2.2 "JC"⟩

/-- The best-ball fold result is the seed or one of the scanned
entries. -/
lemma bestBall_fold_mem (rest : List BallEntry) :
    ∀ e : BallEntry,
      rest.foldl (fun best cur => if cur.net < best.net then cur else best) e = e ∨
      rest.foldl (fun best cur => if cur.net < best.net then cur else best) e ∈ rest := by
  induction rest with
  | nil => intro e; exact Or.inl rfl
  | cons x rest ih =>
    intro e
    simp only [List.foldl_cons]
    by_cases hx : x.net < e.net
    · rw [if_pos hx]
      rcases ih x with h | h
      · exact Or.inr (by rw [h]; exact List.mem_cons_self x rest)
      · exact Or.inr (List.mem_cons_of_mem x h)
    · rw [if_neg hx]
      rcases ih e with h | h
      · exact Or.inl h
      · exact Or.inr (List.mem_cons_of_mem x h)

/-- The best-ball fold result has the smallest net among the seed and
the scanned entries. -/
lemma bestBall_fold_le (rest : List BallEntry) :
    ∀ e : BallEntry,
      (rest.foldl (fun best cur => if cur.net < best.net then cur else best) e).net ≤ e.net ∧
      ∀ x ∈ rest,
        (rest.foldl (fun best cur => if cur.net < best.net then cur else best) e).net ≤ x.net := by
  induction rest with
  | nil => intro e; exact ⟨le_refl _, fun x hx => absurd hx (List.not_mem_nil x)⟩
  | cons y rest ih =>
    intro e
    simp only [List.foldl_cons]
    by_cases hy : y.net < e.net
    · rw [if_pos hy]
      refine ⟨le_trans (ih y).1 (le_of_lt hy), ?_⟩
      intro x hx
      rcases List.mem_cons.mp hx with hxy | hx
      · rw [hxy]; exact (ih y).1
      · exact (ih y).2 x hx
    · rw [if_neg hy]
      refine ⟨(ih e).1, ?_⟩
      intro x hx
      rcases List.mem_cons.mp hx with hxy | hx
      · rw [hxy]; exact le_trans (ih e).1 (not_lt.mp hy)
      · exact (ih e).2 x hx

/-- A best ball belongs to its list. -/
lemma bestBall_mem (l : List BallEntry) (e : BallEntry) (h : bestBall l = some e) :
    e ∈ l := by
  cases l with
  | nil => cases h
  | cons x rest =>
    simp only [bestBall, Option.some.injEq] at h
    rcases bestBall_fold_mem rest x with hm | hm
    · rw [← h, hm]; exact List.mem_cons_self x rest
    · rw [← h]; exact List.mem_cons_of_mem x hm

/-- A best ball has the minimum net of its list. -/
lemma bestBall_le (l : List BallEntry) (e : BallEntry) (h : bestBall l = some e) :
    ∀ x ∈ l, e.net ≤ x.net := by
  cases l with
  | nil => cases h
  | cons y rest =>
    simp only [bestBall, Option.some.injEq] at h
    intro x hx
    rcases List.mem_cons.mp hx with hxy | hx
    · rw [← h, hxy]; exact (bestBall_fold_le rest y).1
    · rw [← h]; exact (bestBall_fold_le rest y).2 x hx

/-- The best ball is none exactly on an empty list. -/
lemma bestBall_eq_none_iff (l : List BallEntry) : bestBall l = none ↔ l = [] := by
  cases l with
  | nil => simp [bestBall]
  | cons x rest => simp [bestBall]

/-- When every player of the list is known to the players map, the
entries are exactly the entered players with net gross minus strokes
received. -/
lemma entriesFor_eq (grossOf : String → Option Int) (playersById : String → Option Player)
    (hcpOf : String → Nat) (hcpRank : Nat) (pids : List String)
    (hknown : ∀ pid ∈ pids, ∃ p, playersById pid = some p ∧ p.courseHcp = hcpOf pid) :
    entriesFor grossOf playersById hcpRank pids =
      pids.filterMap fun pid =>
        (grossOf pid).map fun g =>
          ⟨pid, g, g - (strokesReceivedOnHole (hcpOf pid) hcpRank : Int)⟩ := by
  induction pids with
  | nil => rfl
  | cons pid rest ih =>
    have hrest := ih (fun q hq => hknown q (List.mem_cons_of_mem pid hq))
    obtain ⟨p, hp, hhcp⟩ := hknown pid (List.mem_cons_self pid rest)
    simp only [entriesFor, List.filterMap_cons] at hrest ⊢
    rcases hg : grossOf pid with _ | g
    · simp only [hp, hg, netScore, Option.map_none]
      exact hrest
    · simp only [netScore] at hrest
      simp only [hp, hg, netScore, Option.map_some, hhcp]
      rw [hrest]
      rfl

/-- The entered filter map is empty exactly when the entered filter
is. -/
lemma filterMapGross_nil_iff (grossOf : String → Option Int)
    (f : String → Int → BallEntry) (pids : List String) :
    (pids.filterMap fun pid => (grossOf pid).map (f pid)) = [] ↔
      (pids.filter fun pid => (grossOf pid).isSome) = [] := by
  rw [List.filterMap_eq_nil_iff, List.filter_eq_nil_iff]
  constructor
  · intro h pid hpid
    have := h pid hpid
    rcases hg : grossOf pid with _ | g
    · simp [hg]
    · rw [hg] at this
      cases this
  · intro h pid hpid
    have := h pid hpid
    rcases hg : grossOf pid with _ | g
    · rfl
    · rw [hg] at this
      simp at this

/-- Claim C3: on a Fourball-Net hole the per-side entry lists hold the
nets of exactly the players whose gross is entered, the hole is played
exactly when both sides have at least one entered player, and when
played each side is valued at its minimum net with the strictly lower
best net winning and equal best nets halving the hole. -/
theorem claim_C3_fourball_hole :
    ∀ (m : Match) (playersById : String → Option Player) (hcpOf : String → Nat)
      (h : CourseHole) (aNets bNets : List BallEntry),
      m.format = Format.FOURBALL_NET →
      (∀ pid ∈ m.sideA.playerIds, ∃ p, playersById pid = some p ∧ p.courseHcp = hcpOf pid) →
      (∀ pid ∈ m.sideB.playerIds, ∃ p, playersById pid = some p ∧ p.courseHcp = hcpOf pid) →
      aNets = entriesFor (fun pid => m.fourballGrossByPlayer pid h.hole) playersById
        h.hcpRank m.sideA.playerIds →
      bNets = entriesFor (fun pid => m.fourballGrossByPlayer pid h.hole) playersById
        h.hcpRank m.sideB.playerIds →
      (aNets = m.sideA.playerIds.filterMap fun pid =>
        (m.fourballGrossByPlayer pid h.hole).map fun g =>
          ⟨pid, g, g - (strokesReceivedOnHole (hcpOf pid) h.hcpRank : Int)⟩) ∧
      (bNets = m.sideB.playerIds.filterMap fun pid =>
        (m.fourballGrossByPlayer pid h.hole).map fun g =>
          ⟨pid, g, g - (strokesReceivedOnHole (hcpOf pid) h.hcpRank : Int)⟩) ∧
      ((holeResult m playersById h).played = true ↔
        ((m.sideA.playerIds.filter fun pid => (m.fourballGrossByPlayer pid h.hole).isSome) ≠ [] ∧
         (m.sideB.playerIds.filter fun pid => (m.fourballGrossByPlayer pid h.hole).isSome) ≠ [])) ∧
      (∀ aBest bBest : BallEntry,
        (holeResult m playersById h).details = HoleDetails.fourball (some aBest) (some bBest) →
        (aBest ∈ aNets ∧ ∀ e ∈ aNets, aBest.net ≤ e.net) ∧
        (bBest ∈ bNets ∧ ∀ e ∈ bNets, bBest.net ≤ e.net) ∧
        (holeResult m playersById h).winnerSideId =
          (if aBest.net < bBest.net then some m.sideA.id
           else if bBest.net < aBest.net then some m.sideB.id else none)) ∧
      ((holeResult m playersById h).played = true →
        ∃ aBest bBest,
          (holeResult m playersById h).details = HoleDetails.fourball (some aBest) (some bBest)) := by
  intro m playersById hcpOf h aNets bNets hfmt hkA hkB haN hbN
  have hAeq : entriesFor (fun pid => m.fourballGrossByPlayer pid h.hole) playersById
      h.hcpRank m.sideA.playerIds =
      m.sideA.playerIds.filterMap fun pid =>
        (m.fourballGrossByPlayer pid h.hole).map fun g =>
          ⟨pid, g, g - (strokesReceivedOnHole (hcpOf pid) h.hcpRank : Int)⟩ :=
    entriesFor_eq _ playersById hcpOf h.hcpRank m.sideA.playerIds hkA
  have hBeq : entriesFor (fun pid => m.fourballGrossByPlayer pid h.hole) playersById
      h.hcpRank m.sideB.playerIds =
      m.sideB.playerIds.filterMap fun pid =>
        (m.fourballGrossByPlayer pid h.hole).map fun g =>
          ⟨pid, g, g - (strokesReceivedOnHole (hcpOf pid) h.hcpRank : Int)⟩ :=
    entriesFor_eq _ playersById hcpOf h.hcpRank m.sideB.playerIds hkB
  have hAnil : aNets = [] ↔
      (m.sideA.playerIds.filter fun pid => (m.fourballGrossByPlayer pid h.hole).isSome) = [] := by
    rw [haN, hAeq]
    exact filterMapGross_nil_iff _ _ _
  have hBnil : bNets = [] ↔
      (m.sideB.playerIds.filter fun pid => (m.fourballGrossByPlayer pid h.hole).isSome) = [] := by
    rw [hbN, hBeq]
    exact filterMapGross_nil_iff _ _ _
  refine ⟨by rw [haN, hAeq], by rw [hbN, hBeq], ?_⟩
  rcases hba : bestBall (entriesFor (fun pid => m.fourballGrossByPlayer pid h.hole)
      playersById h.hcpRank m.sideA.playerIds) with _ | aB
  · have hres : holeResult m playersById h =
        ⟨h.hole, false, none, HoleDetails.fourball none none⟩ := by
      simp only [holeResult, hfmt, hba]
    have hAempty : aNets = [] := by
      rw [haN]
      exact (bestBall_eq_none_iff _).mp hba
    refine ⟨?_, ?_, ?_⟩
    · rw [hres]
      simp only [Bool.false_eq_true, false_iff]
      intro hcon
      exact hcon.1 (hAnil.mp hAempty)
    · intro aBest bBest hdet
      rw [hres] at hdet
      cases hdet
    · intro hplayed
      rw [hres] at hplayed
      cases hplayed
  · rcases hbb : bestBall (entriesFor (fun pid => m.fourballGrossByPlayer pid h.hole)
        playersById h.hcpRank m.sideB.playerIds) with _ | bB
    · have hres : holeResult m playersById h =
          ⟨h.hole, false, none, HoleDetails.fourball none none⟩ := by
        simp only [holeResult, hfmt, hba, hbb]
      have hBempty : bNets = [] := by
        rw [hbN]
        exact (bestBall_eq_none_iff _).mp hbb
      refine ⟨?_, ?_, ?_⟩
      · rw [hres]
        simp only [Bool.false_eq_true, false_iff]
        intro hcon
        exact hcon.2 (hBnil.mp hBempty)
      · intro aBest bBest hdet
        rw [hres] at hdet
        cases hdet
      · intro hplayed
        rw [hres] at hplayed
        cases hplayed
    · have hres : holeResult m playersById h =
          ⟨h.hole, true,
           (if aB.net < bB.net then some m.sideA.id
            else if bB.net < aB.net then some m.sideB.id else none),
           HoleDetails.fourball (some aB) (some bB)⟩ := by
        simp only [holeResult, hfmt, hba, hbb]
      have hAne : aNets ≠ [] := by
        rw [haN]
        intro hnil
        rw [(bestBall_eq_none_iff _).mpr hnil] at hba
        cases hba
      have hBne : bNets ≠ [] := by
        rw [hbN]
        intro hnil
        rw [(bestBall_eq_none_iff _).mpr hnil] at hbb
        cases hbb
      refine ⟨?_, ?_, ?_⟩
      · rw [hres]
        simp only [true_iff]
        exact ⟨fun hnil => hAne (hAnil.mpr hnil), fun hnil => hBne (hBnil.mpr hnil)⟩
      · intro aBest bBest hdet
        rw [hres] at hdet
        simp only [HoleDetails.fourball.injEq, Option.some.injEq] at hdet
        obtain ⟨rfl, rfl⟩ := hdet
        rw [haN] at *
        rw [hbN] at *
        exact ⟨⟨bestBall_mem _ _ hba, bestBall_le _ _ hba⟩,
          ⟨bestBall_mem _ _ hbb, bestBall_le _ _ hbb⟩,
          by rw [hres]⟩
      · intro _
        exact ⟨aB, bB, by rw [hres]⟩

/-- A fourball demo match with entries on hole 1 only: side A nets 5
and 6, side B nets 4 and 7, so side B wins the hole. -/
def fbDemoMatch : Match :=
  { id := "d1m1x", format := Format.FOURBALL_NET,
    sideA := ⟨"d1m1x-A", "JC", ["p1", "p2"]⟩, sideB := ⟨"d1m1x-B", "SG", ["p3", "p4"]⟩,
    fourballGrossByPlayer := fun pid k =>
      if k = 1 then
        if pid = "p1" then some 5
        else if pid = "p2" then some 6
        else if pid = "p3" then some 4
        else if pid = "p4" then some 7
        else none
      else none,
    scrambleGrossBySide := fun _ _ => none,
    singlesGrossByPlayer := fun _ _ => none }

/-- The players map of the fourball demo, all with zero handicap. -/
def fbDemoPlayers : String → Option Player := fun pid =>
  if pid = "p1" then some ⟨"p1", "A One", "JC", 0⟩
  else if pid = "p2" then some ⟨"p2", "A Two", "JC", 0⟩
  else if pid = "p3" then some ⟨"p3", "B One", "SG", 0⟩
  else if pid = "p4" then some ⟨"p4", "B Two", "SG", 0⟩
  else none

/-- The first hole of the fourball demo. -/
def fbDemoHole : CourseHole := ⟨1, 4, 1⟩

theorem claim_C3_witness :
    fbDemoMatch.format = Format.FOURBALL_NET ∧
    (holeResult fbDemoMatch fbDemoPlayers fbDemoHole).played = true ∧
    (holeResult fbDemoMatch fbDemoPlayers fbDemoHole).winnerSideId = some "d1m1x-B" := by
  have hkA : ∀ pid ∈ fbDemoMatch.sideA.playerIds,
      ∃ p, fbDemoPlayers pid = some p ∧ p.courseHcp = (fun _ => 0 : String → Nat) pid := by
    intro pid hpid
    have : pid = "p1" ∨ pid = "p2" := by
      simpa [fbDemoMatch] using hpid
    rcases this with rfl | rfl
    · exact ⟨⟨"p1", "A One", "JC", 0⟩, rfl, rfl⟩
    · exact ⟨⟨"p2", "A Two", "JC", 0⟩, rfl, rfl⟩
  have hkB : ∀ pid ∈ fbDemoMatch.sideB.playerIds,
      ∃ p, fbDemoPlayers pid = some p ∧ p.courseHcp = (fun _ => 0 : String → Nat) pid := by
    intro pid hpid
    have : pid = "p3" ∨ pid = "p4" := by
      simpa [fbDemoMatch] using hpid
    rcases this with rfl | rfl
    · exact ⟨⟨"p3", "B One", "SG", 0⟩, rfl, rfl⟩
    · exact ⟨⟨"p4", "B Two", "SG", 0⟩, rfl, rfl⟩
  have h := claim_C3_fourball_hole fbDemoMatch fbDemoPlayers (fun _ => 0) fbDemoHole
    (entriesFor (fun pid => fbDemoMatch.fourballGrossByPlayer pid fbDemoHole.hole)
      fbDemoPlayers fbDemoHole.hcpRank fbDemoMatch.sideA.playerIds)
    (entriesFor (fun pid => fbDemoMatch.fourballGrossByPlayer pid fbDemoHole.hole)
      fbDemoPlayers fbDemoHole.hcpRank fbDemoMatch.sideB.playerIds)
    rfl hkA hkB rfl rfl
  exact ⟨rfl, h.2.2.1.mpr ⟨by decide, by decide⟩, by decide⟩

/-- Every entry comes from a listed player known to the players
map. -/
lemma entriesFor_mem_known (grossOf : String → Option Int) (playersById : String → Option Player)
    (hcpRank : Nat) (pids : List String) (e : BallEntry)
    (he : e ∈ entriesFor grossOf playersById hcpRank pids) :
    e.pid ∈ pids ∧ ∃ p, playersById e.pid = some p := by
  rcases List.mem_filterMap.mp he with ⟨q, hq, hfq⟩
  rcases hg : grossOf q with _ | g
  · rw [hg] at hfq
    cases hfq
  · rcases hpb : playersById q with _ | p
    · rw [hg, hpb] at hfq
      cases hfq
    · rw [hg, hpb] at hfq
      simp only [netScore, Option.some.injEq] at hfq
      rw [← hfq]
      exact ⟨hq, p, hpb⟩

/-- Every hole result is well formed: its hole number is the course
hole, its winner is one of the two sides or nobody, and an unplayed
hole has no winner. -/
lemma holeResult_shape (m : Match) (playersById : String → Option Player) (h : CourseHole) :
    (holeResult m playersById h).hole = h.hole ∧
    ((holeResult m playersById h).winnerSideId = none ∨
     (holeResult m playersById h).winnerSideId = some m.sideA.id ∨
     (holeResult m playersById h).winnerSideId = some m.sideB.id) ∧
    ((holeResult m playersById h).played = false →
      (holeResult m playersById h).winnerSideId = none) := by
  rcases hfmt : m.format with _ | _ | _
  · rcases hba : bestBall (entriesFor (fun pid => m.fourballGrossByPlayer pid h.hole)
        playersById h.hcpRank m.sideA.playerIds) with _ | aB
    · have hres : holeResult m playersById h =
          ⟨h.hole, false, none, HoleDetails.fourball none none⟩ := by
        simp only [holeResult, hfmt, hba]
      rw [hres]
      exact ⟨rfl, Or.inl rfl, fun _ => rfl⟩
    · rcases hbb : bestBall (entriesFor (fun pid => m.fourballGrossByPlayer pid h.hole)
          playersById h.hcpRank m.sideB.playerIds) with _ | bB
      · have hres : holeResult m playersById h =
            ⟨h.hole, false, none, HoleDetails.fourball none none⟩ := by
          simp only [holeResult, hfmt, hba, hbb]
        rw [hres]
        exact ⟨rfl, Or.inl rfl, fun _ => rfl⟩
      · have hres : holeResult m playersById h =
            ⟨h.hole, true,
             (if aB.net < bB.net then some m.sideA.id
              else if bB.net < aB.net then some m.sideB.id else none),
             HoleDetails.fourball (some aB) (some bB)⟩ := by
          simp only [holeResult, hfmt, hba, hbb]
        rw [hres]
        refine ⟨rfl, ?_, fun hc => by cases hc⟩
        by_cases h1 : aB.net < bB.net
        · rw [if_pos h1]
          exact Or.inr (Or.inl rfl)
        · rw [if_neg h1]
          by_cases h2 : bB.net < aB.net
          · rw [if_pos h2]
            exact Or.inr (Or.inr rfl)
          · rw [if_neg h2]
            exact Or.inl rfl
  · rcases hA : m.scrambleGrossBySide m.sideA.id h.hole with _ | ag
    · have hres : holeResult m playersById h =
          ⟨h.hole, false, none, HoleDetails.scramble none none none none⟩ := by
        simp only [holeResult, hfmt, hA]
      rw [hres]
      exact ⟨rfl, Or.inl rfl, fun _ => rfl⟩
    · rcases hB : m.scrambleGrossBySide m.sideB.id h.hole with _ | bg
      · have hres : holeResult m playersById h =
            ⟨h.hole, false, none, HoleDetails.scramble none none none none⟩ := by
          simp only [holeResult, hfmt, hA, hB]
        rw [hres]
        exact ⟨rfl, Or.inl rfl, fun _ => rfl⟩
      · have hres : holeResult m playersById h =
            ⟨h.hole, true,
             (if stablefordFromDiff (ag - h.par) > stablefordFromDiff (bg - h.par) then some m.sideA.id
              else if stablefordFromDiff (bg - h.par) > stablefordFromDiff (ag - h.par) then some m.sideB.id
              else none),
             HoleDetails.scramble (some ag) (some bg)
               (some (stablefordFromDiff (ag - h.par))) (some (stablefordFromDiff (bg - h.par)))⟩ := by
          simp only [holeResult, hfmt, hA, hB]
        rw [hres]
        refine ⟨rfl, ?_, fun hc => by cases hc⟩
        by_cases h1 : stablefordFromDiff (ag - h.par) > stablefordFromDiff (bg - h.par)
        · rw [if_pos h1]
          exact Or.inr (Or.inl rfl)
        · rw [if_neg h1]
          by_cases h2 : stablefordFromDiff (bg - h.par) > stablefordFromDiff (ag - h.par)
          · rw [if_pos h2]
            exact Or.inr (Or.inr rfl)
          · rw [if_neg h2]
            exact Or.inl rfl
  · rcases hA : (match m.sideA.playerIds.head? with
        | some pid => m.singlesGrossByPlayer pid h.hole
        | none => none) with _ | ag
    · have hres : holeResult m playersById h =
          ⟨h.hole, false, none, HoleDetails.singles none none none none⟩ := by
        simp only [holeResult, hfmt, hA]
      rw [hres]
      exact ⟨rfl, Or.inl rfl, fun _ => rfl⟩
    · rcases hB : (match m.sideB.playerIds.head? with
          | some pid => m.singlesGrossByPlayer pid h.hole
          | none => none) with _ | bg
      · have hres : holeResult m playersById h =
            ⟨h.hole, false, none, HoleDetails.singles none none none none⟩ := by
          simp only [holeResult, hfmt, hA, hB]
        rw [hres]
        exact ⟨rfl, Or.inl rfl, fun _ => rfl⟩
      · rcases haN : (match m.sideA.playerIds.head? with
            | some pid =>
              match playersById pid with
              | some p => netScore (some ag) p.courseHcp h.hcpRank
              | none => none
            | none => none) with _ | an
        · have hres : holeResult m playersById h =
              ⟨h.hole, true, none, HoleDetails.singles (some ag) (some bg) none
                (match m.sideB.playerIds.head? with
                 | some pid =>
                   match playersById pid with
                   | some p => netScore (some bg) p.courseHcp h.hcpRank
                   | none => none
                 | none => none)⟩ := by
            simp only [holeResult, hfmt, hA, hB, haN]
          rw [hres]
          exact ⟨rfl, Or.inl rfl, fun hc => by cases hc⟩
        · rcases hbN : (match m.sideB.playerIds.head? with
              | some pid =>
                match playersById pid with
                | some p => netScore (some bg) p.courseHcp h.hcpRank
                | none => none
              | none => none) with _ | bn
          · have hres : holeResult m playersById h =
                ⟨h.hole, true, none,
                 HoleDetails.singles (some ag) (some bg) (some an) none⟩ := by
              simp only [holeResult, hfmt, hA, hB, haN, hbN]
            rw [hres]
            exact ⟨rfl, Or.inl rfl, fun hc => by cases hc⟩
          · have hres : holeResult m playersById h =
                ⟨h.hole, true,
                 (if an < bn then some m.sideA.id
                  else if bn < an then some m.sideB.id else none),
                 HoleDetails.singles (some ag) (some bg) (some an) (some bn)⟩ := by
              simp only [holeResult, hfmt, hA, hB, haN, hbN]
            rw [hres]
            refine ⟨rfl, ?_, fun hc => by cases hc⟩
            by_cases h1 : an < bn
            · rw [if_pos h1]
              exact Or.inr (Or.inl rfl)
            · rw [if_neg h1]
              by_cases h2 : bn < an
              · rw [if_pos h2]
                exact Or.inr (Or.inr rfl)
              · rw [if_neg h2]
                exact Or.inl rfl

/-- A singles match whose side A player pa is absent from the players
map while both players hold a gross of 5 on hole 1. -/
def snglDemoMatch : Match :=
  { id := "d3m1x", format := Format.SINGLES_NET,
    sideA := ⟨"d3m1x-A", "JC", ["pa"]⟩, sideB := ⟨"d3m1x-B", "SG", ["pb"]⟩,
    fourballGrossByPlayer := fun _ _ => none,
    scrambleGrossBySide := fun _ _ => none,
    singlesGrossByPlayer := fun pid k =>
      if (pid = "pa" ∨ pid = "pb") ∧ k = 1 then some 5 else none }

/-- A players map that only knows pb. -/
def snglDemoPlayers : String → Option Player := fun pid =>
  if pid = "pb" then some ⟨"pb", "B Player", "SG", 0⟩ else none

/-- Counterexample to claim C8 as stated: on a Singles-Net hole whose
side A player id is unknown to the players map but has a gross entry,
the hole is reported as played (a halved hole that counts toward the
match status), not as not played, and the unknown player entry is kept
in the detail record rather than discarded. -/
theorem claim_C8_counterexample :
    snglDemoPlayers "pa" = none ∧
    (holeResult snglDemoMatch snglDemoPlayers fbDemoHole).played = true ∧
    (holeResult snglDemoMatch snglDemoPlayers fbDemoHole).winnerSideId = none ∧
    (holeResult snglDemoMatch snglDemoPlayers fbDemoHole).details =
      HoleDetails.singles (some 5) (some 5) none (some 5) := by
  exact ⟨by decide, by decide, by decide, by decide⟩

/-- Claim C8, amended: the engine is total and returns one well-formed
HoleResult per course hole; a Fourball-Net player unknown to the
players map is discarded from the entries and a side made entirely of
unknown players leaves the hole not played; a Scramble-Stableford side
id absent from the gross mapping leaves the hole not played; but a
Singles-Net player id unknown to the players map with both grosses
entered yields a played hole with no winner. -/
theorem claim_C8_unknown_references :
    ∀ (m : Match) (holes : List CourseHole) (playersById : String → Option Player),
      (computeMatchHoles m holes playersById).length = holes.length ∧
      (∀ r ∈ computeMatchHoles m holes playersById,
        (r.winnerSideId = none ∨ r.winnerSideId = some m.sideA.id ∨
         r.winnerSideId = some m.sideB.id) ∧
        (r.played = false → r.winnerSideId = none)) ∧
      (∀ h : CourseHole, m.format = Format.FOURBALL_NET →
        (∀ pid, playersById pid = none →
          ∀ e ∈ entriesFor (fun q => m.fourballGrossByPlayer q h.hole) playersById
            h.hcpRank m.sideA.playerIds, e.pid ≠ pid) ∧
        ((∀ pid ∈ m.sideA.playerIds, playersById pid = none) →
          (holeResult m playersById h).played = false)) ∧
      (∀ h : CourseHole, m.format = Format.SCRAMBLE_STABLEFORD →
        m.scrambleGrossBySide m.sideA.id h.hole = none →
        (holeResult m playersById h).played = false) ∧
      (∀ (h : CourseHole) (apid bpid : String) (ga gb : Int),
        m.format = Format.SINGLES_NET →
        m.sideA.playerIds.head? = some apid →
        m.sideB.playerIds.head? = some bpid →
        playersById apid = none →
        m.singlesGrossByPlayer apid h.hole = some ga →
        m.singlesGrossByPlayer bpid h.hole = some gb →
        (holeResult m playersById h).played = true ∧
        (holeResult m playersById h).winnerSideId = none) := by
  intro m holes playersById
  refine ⟨by simp [computeMatchHoles], ?_, ?_, ?_, ?_⟩
  · intro r hr
    rcases List.mem_map.mp hr with ⟨h, _, rfl⟩
    exact ⟨(holeResult_shape m playersById h).2.1, (holeResult_shape m playersById h).2.2⟩
  · intro h hfmt
    constructor
    · intro pid hpid e he hepid
      rcases entriesFor_mem_known _ playersById h.hcpRank m.sideA.playerIds e he with ⟨_, p, hp⟩
      rw [hepid, hpid] at hp
      cases hp
    · intro hallunknown
      have hempty : entriesFor (fun q => m.fourballGrossByPlayer q h.hole) playersById
          h.hcpRank m.sideA.playerIds = [] := by
        rw [List.eq_nil_iff_forall_not_mem]
        intro e he
        rcases entriesFor_mem_known _ playersById h.hcpRank m.sideA.playerIds e he with
          ⟨hmem, p, hp⟩
        rw [hallunknown e.pid hmem] at hp
        cases hp
      have hres : holeResult m playersById h =
          ⟨h.hole, false, none, HoleDetails.fourball none none⟩ := by
        simp only [holeResult, hfmt, hempty, bestBall]
      rw [hres]
  · intro h hfmt hnone
    have hres : holeResult m playersById h =
        ⟨h.hole, false, none, HoleDetails.scramble none none none none⟩ := by
      simp only [holeResult, hfmt, hnone]
    rw [hres]
  · intro h apid bpid ga gb hfmt hhA hhB hunk hga hgb
    have hres : holeResult m playersById h =
        ⟨h.hole, true, none,
         HoleDetails.singles (some ga) (some gb) none
           (match playersById bpid with
            | some p => netScore (some gb) p.courseHcp h.hcpRank
            | none => none)⟩ := by
      simp only [holeResult, hfmt, hhA, hhB, hga, hgb, hunk]
    rw [hres]
    exact ⟨rfl, rfl⟩

theorem claim_C8_witness :
    (computeMatchHoles snglDemoMatch [fbDemoHole] snglDemoPlayers).length = 1 ∧
    (holeResult snglDemoMatch snglDemoPlayers fbDemoHole).played = true ∧
    (holeResult snglDemoMatch snglDemoPlayers fbDemoHole).winnerSideId = none := by
  have h := claim_C8_unknown_references snglDemoMatch [fbDemoHole] snglDemoPlayers
  have hs := h.2.2.2.2 fbDemoHole "pa" "pb" 5 5 rfl rfl rfl (by decide) (by decide) (by decide)
  exact ⟨h.1, hs.1, hs.2⟩

end Frellis
